import Mathlib

/-!
Verification development for the sandbox-preparation core
(src/main/cpp/util/file_posix.cc and src/main/tools/linux-sandbox-options.cc).

Paths and command-line tokens are modelled as lists of characters
(std::string).  Filesystem state, errno and the process umask are threaded
explicitly; system-call outcomes that the code merely observes (open, write,
close, the clock) are supplied by small environment records.
-/

namespace Bazel

/-- Paths and command-line tokens: std::string as a list of characters. -/
abbrev Path := List Char

/-- errno value ENOENT (no such file or directory), from errno.h. -/
def ENOENT : Nat := 2

/-- errno value EACCES (permission denied), from errno.h. -/
def EACCES : Nat := 13

/-- errno value EEXIST (file exists), from errno.h. -/
def EEXIST : Nat := 17

/-- errno value ENOTDIR (not a directory), from errno.h. -/
def ENOTDIR : Nat := 20

/-- file_posix.cc IsRootDirectory: path.size() == 1 && path[0] == '/'. -/
def IsRootDirectory (path : Path) : Bool :=
  match path with
  | [c] => c = '/'
  | _ => false

/-- Helper for SplitPath, modelling std::string::rfind('/'): splits the path
at its last '/' into the characters strictly before and strictly after it,
or none when the path contains no '/'. -/
def splitRaw : Path → Option (Path × Path)
  | [] => none
  | c :: cs =>
    match splitRaw cs with
    | some (d, b) => some (c :: d, b)
    | none => if c = '/' then some ([], cs) else none

/-- file_posix.cc SplitPath: pair of the part before the last '/' and the
part after it; with no '/' the first component is empty, and a last '/' at
position 0 keeps the single leading '/' as the first component. -/
def SplitPath (path : Path) : Path × Path :=
  match splitRaw path with
  | none => ([], path)
  | some ([], b) => (['/'], b)
  | some (d, b) => (d, b)

/-- Modelled from the spec: Dirname (defined in blaze_util's file.cc, which
is not part of this source snapshot) is the first component of SplitPath —
"the prefix before the last '/', via SplitPath". -/
def Dirname (path : Path) : Path := (SplitPath path).1

/-- The stat/lstat view of one existing path: whether the resolved target is
a directory, its permission bits (st_mode & 0777), and the owner reported by
lstat (the link itself when the path is a symlink). -/
structure DirEntry where
  isDir : Bool
  mode : Nat
  lstatOwner : Nat
deriving DecidableEq

/-- Process and filesystem state threaded through the directory routines:
the visible paths, the process umask, the effective uid, and errno. -/
structure FsState where
  paths : Path → Option DirEntry
  umask : Nat
  euid : Nat
  errno : Nat

/-- The umask system call: sets the process umask to v and returns the
previous value. -/
def umaskCall (st : FsState) (v : Nat) : Nat × FsState :=
  (st.umask, { st with umask := v })

/-- Clears from m the bits set in mask, i.e. m & ~mask: the bits of
m &&& mask are a sub-mask of m, so subtracting them clears exactly them. -/
def maskClear (m mask : Nat) : Nat := m - Nat.land m mask

/-- Replaces the entry stored for path p by e, leaving every other path
unchanged (the effect of a successful chmod or mkdir). -/
def setPath (st : FsState) (p : Path) (e : DirEntry) : FsState :=
  { st with paths := fun q => if q = p then some e else st.paths q }

/-- file_posix.cc GetDirectoryStat.  stat failure is modelled as the path
being absent (errno ENOENT); lstat succeeds whenever the path exists; chmod
is modelled as succeeding (it is attempted only after the ownership check
has already passed).  Returns the bool result and the updated state. -/
def GetDirectoryStat (path : Path) (mode : Nat) (check_perms : Bool)
    (st : FsState) : Bool × FsState :=
  match st.paths path with
  | none => (false, { st with errno := ENOENT })
  | some e =>
    if e.isDir = false then (false, { st with errno := ENOTDIR })
    else if check_perms then
      if e.lstatOwner ≠ st.euid then (false, { st with errno := EACCES })
      else
        let p1 := umaskCall st 0o022
        let p2 := umaskCall p1.2 p1.1
        let mode2 := maskClear mode p1.1
        if e.mode ≠ mode2 then
          (true, setPath p2.2 path { e with mode := mode2 })
        else (true, p2.2)
    else (true, st)

/-- file_posix.cc MakeDirectories (the recursive helper taking childmost).
mkdir is modelled deterministically: it fails with EEXIST when the path is
already present and otherwise creates a directory owned by the effective
user whose mode is the requested mode adjusted by the current umask. -/
def MakeDirectories (path : Path) (mode : Nat) (childmost : Bool)
    (st : FsState) : Bool × FsState :=
  if h : path = [] ∨ IsRootDirectory path = true then
    (false, { st with errno := EACCES })
  else
    let s := GetDirectoryStat path mode childmost st
    if s.1 then (true, s.2)
    else if s.2.errno = ENOENT then
      let r := MakeDirectories (Dirname path) mode false s.2
      if r.1 = false then (false, r.2)
      else
        match r.2.paths path with
        | some _ =>
          if childmost then
            GetDirectoryStat path mode childmost ({ r.2 with errno := EEXIST })
          else (true, { r.2 with errno := EEXIST })
        | none =>
          (true, setPath r.2 path
            { isDir := true, mode := maskClear mode r.2.umask,
              lstatOwner := r.2.euid })
    else (false, s.2)
termination_by path.length
decreasing_by
  have key : ∀ p d b : Path, splitRaw p = some (d, b) → p = d ++ '/' :: b := by
    intro p
    induction p with
    | nil => intro d b hdb; simp [splitRaw] at hdb
    | cons c cs ih =>
      intro d b hdb
      simp only [splitRaw] at hdb
      rcases hs : splitRaw cs with _ | ⟨d1, b1⟩
      · rw [hs] at hdb
        by_cases hc : c = '/'
        · rw [if_pos hc] at hdb
          simp only [Option.some.injEq, Prod.mk.injEq] at hdb
          obtain ⟨hd, hb⟩ := hdb
          subst hd
          subst hb
          simp [hc]
        · simp [hc] at hdb
      · rw [hs] at hdb
        simp only [Option.some.injEq, Prod.mk.injEq] at hdb
        obtain ⟨hd, hb⟩ := hdb
        subst hd
        subst hb
        have hcs := ih d1 b1 hs
        rw [hcs]
        simp
  have hne : path ≠ [] := fun hp => h (Or.inl hp)
  have hnr : path ≠ ['/'] := by
    intro hp
    apply h
    right
    rw [hp]
    rfl
  rcases hs : splitRaw path with _ | ⟨d, b⟩
  · simp only [Dirname, SplitPath, hs, List.length_nil]
    exact List.length_pos.mpr hne
  · have hp := key path d b hs
    rcases hd : d with _ | ⟨d0, ds⟩
    · subst hd
      rcases hb : b with _ | ⟨x, xs⟩
      · subst hb
        exact absurd (by simpa using hp) hnr
      · subst hb
        simp only [Dirname, SplitPath, hs]
        rw [hp]
        simp
    · subst hd
      simp only [Dirname, SplitPath, hs]
      rw [hp]
      simp [List.length_append]

/-- Outcomes of the open / write / close system calls during one WriteFile
run, supplied by the environment (the OS): whether each call succeeds, the
errno value a failing call sets, and how many bytes a failing write phase
managed to write. -/
structure WriteEnv where
  openOk : Bool
  openErrno : Nat
  writeOk : Bool
  writeErrno : Nat
  writtenLen : Nat
  closeOk : Bool
  closeErrno : Nat
deriving DecidableEq

/-- File contents by path (file bytes as a list of naturals). -/
abbrev FileMap := Path → Option (List Nat)

/-- file_posix.cc UnlinkPath: unlink(file_path) == 0.  In the model unlink
succeeds exactly when the path exists, and removes it. -/
def UnlinkPath (p : Path) (fs : FileMap) : Bool × FileMap :=
  ((fs p).isSome, fun q => if q = p then none else fs q)

/-- file_posix.cc WriteFile.  WriteTo (declared in file.h, defined outside
this snapshot) is modelled from the spec: it reports success exactly when
the full buffer was written; on failure, a prefix of writtenLen bytes was
written and errno holds the write error.  A failing unlink of a missing
destination sets errno to ENOENT (ignored by the code); a failing close
sets errno to the close error and makes the function return false before
the write-phase errno is restored.  Returns (result, errno, file map). -/
def WriteFile (env : WriteEnv) (data : List Nat) (filename : Path)
    (fs : FileMap) (errno0 : Nat) : Bool × Nat × FileMap :=
  let u := UnlinkPath filename fs
  let errno1 := if u.1 then errno0 else ENOENT
  if env.openOk = false then (false, env.openErrno, u.2)
  else
    let content := if env.writeOk then data else data.take env.writtenLen
    let fs2 : FileMap := fun q => if q = filename then some content else u.2 q
    let errno2 := if env.writeOk then errno1 else env.writeErrno
    if env.closeOk = false then (false, env.closeErrno, fs2)
    else (env.writeOk, errno2, fs2)

/-- Seconds in a year as used by PosixFileMtime::GetFuture
(3600 * 24 * 365). -/
def GetFuture (now : Int) (years : Int) : Int := now + 3600 * 24 * 365 * years

/-- The constant members of one PosixFileMtime instance: the nine-years
threshold and the ten-years utimbuf (actime, modtime). -/
structure PosixFileMtime where
  near_future : Int
  distant_future_actime : Int
  distant_future_modtime : Int
deriving DecidableEq

/-- The PosixFileMtime constructor: near_future_ = GetFuture(9), then
distant_future_ = {GetFuture(10), GetFuture(10)}; t1, t2, t3 are the three
successive GetNow() clock readings, in member-initialization order. -/
def mkPosixFileMtime (t1 t2 t3 : Int) : PosixFileMtime :=
  { near_future := GetFuture t1 9,
    distant_future_actime := GetFuture t2 10,
    distant_future_modtime := GetFuture t3 10 }

/-- Modification times by path. -/
abbrev MtimeMap := Path → Option Int

/-- utime(path, times): stores the modtime for the path (st_mtime reads
back the modtime member of the utimbuf). -/
def setMtime (m : MtimeMap) (p : Path) (t : Int) : MtimeMap :=
  fun q => if q = p then some t else m q

/-- PosixFileMtime::SetToNow: utime(path, {now, now}) with now = GetNow()
read at call time. -/
def SetToNow (now : Int) (p : Path) (m : MtimeMap) : MtimeMap :=
  setMtime m p now

/-- PosixFileMtime::SetToDistantFuture: utime(path, distant_future_). -/
def SetToDistantFuture (fm : PosixFileMtime) (p : Path) (m : MtimeMap) :
    MtimeMap :=
  setMtime m p fm.distant_future_modtime

/-- PosixFileMtime::GetIfInDistantFuture: stat the path, then report
st_mtime > near_future_; none models a failing stat (missing path). -/
def GetIfInDistantFuture (fm : PosixFileMtime) (p : Path) (m : MtimeMap) :
    Option Bool :=
  match m p with
  | none => none
  | some t => some (decide (fm.near_future < t))

/-- linux-sandbox-options.h Options struct (reconstructed from its uses in
linux-sandbox-options.cc); the global instance has static storage, so every
field starts zeroed / empty. -/
structure Options where
  sandbox_root_dir : Option Path
  working_dir : Option Path
  timeout_secs : Int
  kill_delay_secs : Int
  stdout_path : Option Path
  stderr_path : Option Path
  writable_files : List Path
  inaccessible_files : List Path
  tmpfs_dirs : List Path
  bind_mount_sources : List Path
  bind_mount_targets : List Path
  create_netns : Bool
  fake_root : Bool
  debug : Bool
  args : List Path
deriving DecidableEq

/-- The zero-initialized global Options instance. -/
def defaultOptions : Options :=
  { sandbox_root_dir := none, working_dir := none, timeout_secs := 0,
    kill_delay_secs := 0, stdout_path := none, stderr_path := none,
    writable_files := [], inaccessible_files := [], tmpfs_dirs := [],
    bind_mount_sources := [], bind_mount_targets := [],
    create_netns := false, fake_root := false, debug := false, args := [] }

/-- The distinct Usage() diagnostics of linux-sandbox-options.cc; Usage
prints the message and banner and exits with failure. -/
inductive UsageMsg where
  | notAbsolute (flag : Char)
  | multipleRoot
  | multipleWorkdir
  | invalidTimeout (arg : Path)
  | invalidKillDelay (arg : Path)
  | multipleStdout
  | multipleStderr
  | mNotPreceded
  | mergingCommands
  | unrecognizedFlag (c : Char)
  | missingArgument (c : Char)
deriving DecidableEq

/-- Result of handling one getopt-returned option: continue with updated
options and source_specified flag, exit via Usage, or exit via the -C
namespace-capability probe. -/
inductive StepResult where
  | cont (o : Options) (ss : Bool)
  | usage (m : UsageMsg)
  | capExit
deriving DecidableEq

/-- Result of ParseCommandLine: a configuration, a Usage exit, or the -C
probe exit. -/
inductive ParseResult where
  | ok (o : Options)
  | usage (m : UsageMsg)
  | capExit
deriving DecidableEq

/-- ValidateIsAbsolutePath's test: path[0] == '/'. -/
def isAbsolute (p : Path) : Bool := p.head? = some '/'

/-- The characters of the getopt option string ":CS:W:T:t:l:L:w:i:e:M:m:NRD"
that take an argument. -/
def takesArg (c : Char) : Bool :=
  c = 'S' || c = 'W' || c = 'T' || c = 't' || c = 'l' || c = 'L' ||
  c = 'w' || c = 'i' || c = 'e' || c = 'M' || c = 'm'

/-- The option characters that take no argument. -/
def noArgOpt (c : Char) : Bool :=
  c = 'C' || c = 'N' || c = 'R' || c = 'D'

/-- The whitespace test of C isspace, as used by sscanf before a %d field. -/
def isSpaceC (c : Char) : Bool :=
  c = ' ' || c = '\t' || c = '\n' || c = '\r' ||
  c = Char.ofNat 11 || c = Char.ofNat 12

/-- Value of a non-empty digit string. -/
def digitsVal (ds : List Char) : Nat :=
  ds.foldl (fun a c => 10 * a + (c.toNat - '0'.toNat)) 0

/-- sscanf(arg, "%d", &out): skip whitespace, read an optional sign and at
least one digit, ignore anything after the digits; none models a sscanf
return of 0 (no integer parsed). -/
def scanInt (s : Path) : Option Int :=
  let s1 := s.dropWhile isSpaceC
  let rest := match s1 with
    | '-' :: r => (true, r)
    | '+' :: r => (false, r)
    | _ => (false, s1)
  let ds := rest.2.takeWhile Char.isDigit
  if ds.isEmpty then none
  else if rest.1 then some (-(digitsVal ds : Int))
  else some (digitsVal ds : Int)

/-- One getopt-delivered option: a recognized option with its argument
(empty for the no-argument options), the '?' unrecognized-option report, or
the ':' missing-argument report. -/
inductive OptEvent where
  | opt (c : Char) (arg : Path)
  | unrecognized (c : Char)
  | missingArg (c : Char)
deriving DecidableEq

/-- getopt's handling of one cluster token "-abc...": the chars after the
'-', with the following token (if any) available as an argument; returns
the delivered options and whether the following token was consumed as an
argument.  An argument-taking char uses the rest of its own token when
non-empty, else the next token; an unrecognized char is reported and
scanning continues inside the cluster. -/
def clusterLex : List Char → Option Path → List OptEvent × Bool
  | [], _ => ([], false)
  | c :: rest, next =>
    if takesArg c then
      match rest with
      | [] =>
        match next with
        | some n => ([OptEvent.opt c n], true)
        | none => ([OptEvent.missingArg c], false)
      | _ :: _ => ([OptEvent.opt c rest], false)
    else if noArgOpt c then
      let r := clusterLex rest next
      (OptEvent.opt c [] :: r.1, r.2)
    else
      let r := clusterLex rest next
      (OptEvent.unrecognized c :: r.1, r.2)

/-- The getopt loop over the tokens after the program name: stops consuming
at a literal "--" (which getopt swallows) or at the first token that is not
an option (no leading '-', or a bare "-"); returns the delivered options
and the remaining tokens (argv[optind..]). -/
def lexLoop : List Path → List OptEvent × List Path
  | [] => ([], [])
  | t :: ts =>
    if t = ['-', '-'] then ([], ts)
    else
      match t with
      | '-' :: c :: rest =>
        let cl := clusterLex (c :: rest) ts.head?
        if cl.2 then
          match ts with
          | [] => (cl.1, [])
          | _ :: ts2 =>
            let r := lexLoop ts2
            (cl.1 ++ r.1, r.2)
        else
          let r := lexLoop ts
          (cl.1 ++ r.1, r.2)
      | _ => ([], t :: ts)

/-- The body of one iteration of ParseCommandLine's switch for a recognized
option character c with argument arg, acting on the options being built and
the (already reset, see runEvents) source_specified flag. -/
def applyOpt (o : Options) (ss : Bool) (c : Char) (arg : Path) : StepResult :=
  if c = 'C' then StepResult.capExit
  else if c = 'S' then
    match o.sandbox_root_dir with
    | none =>
      if isAbsolute arg then
        StepResult.cont { o with sandbox_root_dir := some arg } ss
      else StepResult.usage (UsageMsg.notAbsolute 'S')
    | some _ => StepResult.usage UsageMsg.multipleRoot
  else if c = 'W' then
    match o.working_dir with
    | none =>
      if isAbsolute arg then
        StepResult.cont { o with working_dir := some arg } ss
      else StepResult.usage (UsageMsg.notAbsolute 'W')
    | some _ => StepResult.usage UsageMsg.multipleWorkdir
  else if c = 'T' then
    match scanInt arg with
    | some v =>
      if v < 0 then StepResult.usage (UsageMsg.invalidTimeout arg)
      else StepResult.cont { o with timeout_secs := v } ss
    | none => StepResult.usage (UsageMsg.invalidTimeout arg)
  else if c = 't' then
    match scanInt arg with
    | some v =>
      if v < 0 then StepResult.usage (UsageMsg.invalidKillDelay arg)
      else StepResult.cont { o with kill_delay_secs := v } ss
    | none => StepResult.usage (UsageMsg.invalidKillDelay arg)
  else if c = 'l' then
    match o.stdout_path with
    | none => StepResult.cont { o with stdout_path := some arg } ss
    | some _ => StepResult.usage UsageMsg.multipleStdout
  else if c = 'L' then
    match o.stderr_path with
    | none => StepResult.cont { o with stderr_path := some arg } ss
    | some _ => StepResult.usage UsageMsg.multipleStderr
  else if c = 'w' then
    if isAbsolute arg then
      StepResult.cont { o with writable_files := o.writable_files ++ [arg] } ss
    else StepResult.usage (UsageMsg.notAbsolute 'w')
  else if c = 'i' then
    if isAbsolute arg then
      StepResult.cont
        { o with inaccessible_files := o.inaccessible_files ++ [arg] } ss
    else StepResult.usage (UsageMsg.notAbsolute 'i')
  else if c = 'e' then
    if isAbsolute arg then
      StepResult.cont { o with tmpfs_dirs := o.tmpfs_dirs ++ [arg] } ss
    else StepResult.usage (UsageMsg.notAbsolute 'e')
  else if c = 'M' then
    if isAbsolute arg then
      StepResult.cont
        { o with bind_mount_sources := o.bind_mount_sources ++ [arg],
                 bind_mount_targets := o.bind_mount_targets ++ [arg] } true
    else StepResult.usage (UsageMsg.notAbsolute 'M')
  else if c = 'm' then
    if isAbsolute arg then
      if ss = false then StepResult.usage UsageMsg.mNotPreceded
      else
        StepResult.cont
          { o with bind_mount_targets :=
              o.bind_mount_targets.dropLast ++ [arg] } false
    else StepResult.usage (UsageMsg.notAbsolute 'm')
  else if c = 'N' then StepResult.cont { o with create_netns := true } ss
  else if c = 'R' then StepResult.cont { o with fake_root := true } ss
  else if c = 'D' then StepResult.cont { o with debug := true } ss
  else StepResult.usage (UsageMsg.unrecognizedFlag c)

/-- Runs the getopt loop body over the delivered options.  Before each
switch dispatch, source_specified is reset to false unless the option is
'M' or 'm' (the line "if (c != 'M' && c != 'm') source_specified = false;");
the '?' and ':' getopt reports go straight to Usage. -/
def runEvents (o : Options) (ss : Bool) : List OptEvent → StepResult
  | [] => StepResult.cont o ss
  | e :: es =>
    match e with
    | OptEvent.opt c arg =>
      let ss1 := if c ≠ 'M' ∧ c ≠ 'm' then false else ss
      match applyOpt o ss1 c arg with
      | StepResult.cont o2 s2 => runEvents o2 s2 es
      | r => r
    | OptEvent.unrecognized c => StepResult.usage (UsageMsg.unrecognizedFlag c)
    | OptEvent.missingArg c => StepResult.usage (UsageMsg.missingArgument c)

/-- The tail of ParseCommandLine: if tokens remain after the option loop
they become the command, unless a command was already present. -/
def finishParse (o : Options) (remaining : List Path) : ParseResult :=
  match remaining with
  | [] => ParseResult.ok o
  | _ :: _ =>
    match o.args with
    | [] => ParseResult.ok { o with args := remaining }
    | _ :: _ => ParseResult.usage UsageMsg.mergingCommands

/-- linux-sandbox-options.cc ParseCommandLine over the argv tokens
(args.head is the program name, skipped by getopt).  The local
  bool source_specified;
is declared without an initializer and is read before any write when the
first delivered option is 'm', so its indeterminate initial value is an
explicit parameter ssInit. -/
def ParseCommandLine (ssInit : Bool) (args : List Path) : ParseResult :=
  let l := lexLoop (args.drop 1)
  match runEvents defaultOptions ssInit l.1 with
  | StepResult.cont o _ => finishParse o l.2
  | StepResult.usage m => ParseResult.usage m
  | StepResult.capExit => ParseResult.capExit

/-- Errors that abort argument expansion: DIE on an unopenable @-file, or
the fuel bound standing in for the unbounded recursion of the source (a
self-referential @-file recurses forever there). -/
inductive ExpandErr where
  | openFailed (name : Path)
  | fuelExhausted
deriving DecidableEq

/-- linux-sandbox-options.cc ExpandArgument: a token whose first character
is '@' is replaced by the recursively expanded non-empty lines of the file
named by the rest of the token; any other token is appended unchanged.
fsys maps a file name to its getline-split lines, none being an unopenable
file; fuel bounds the recursion depth, which the source does not bound. -/
def ExpandArgument (fsys : Path → Option (List Path)) :
    Nat → List Path → Path → Except ExpandErr (List Path)
  | 0, _, _ => Except.error ExpandErr.fuelExhausted
  | fuel + 1, expanded, arg =>
    if arg.head? = some '@' then
      match fsys arg.tail with
      | none => Except.error (ExpandErr.openFailed arg.tail)
      | some lines =>
        lines.foldlM
          (fun acc line =>
            if 0 < line.length then ExpandArgument fsys fuel acc line
            else pure acc)
          expanded
    else Except.ok (expanded ++ [arg])

/-- The loop of linux-sandbox-options.cc ExpandArguments: expand tokens
until the first literal "--", then copy that token and everything after it
through unchanged. -/
def expandLoop (fsys : Path → Option (List Path)) (fuel : Nat)
    (expanded : List Path) : List Path → Except ExpandErr (List Path)
  | [] => Except.ok expanded
  | a :: rest =>
    if a = ['-', '-'] then Except.ok (expanded ++ a :: rest)
    else
      match ExpandArgument fsys fuel expanded a with
      | Except.ok e2 => expandLoop fsys fuel e2 rest
      | Except.error err => Except.error err

/-- linux-sandbox-options.cc ExpandArguments, starting from an empty
output list. -/
def ExpandArguments (fsys : Path → Option (List Path)) (fuel : Nat)
    (args : List Path) : Except ExpandErr (List Path) :=
  expandLoop fsys fuel [] args

theorem splitRaw_append :
    ∀ p d b : Path, splitRaw p = some (d, b) → p = d ++ '/' :: b := by
  intro p
  induction p with
  | nil => intro d b hdb; simp [splitRaw] at hdb
  | cons c cs ih =>
    intro d b hdb
    simp only [splitRaw] at hdb
    rcases hs : splitRaw cs with _ | ⟨d1, b1⟩
    · rw [hs] at hdb
      by_cases hc : c = '/'
      · rw [if_pos hc] at hdb
        simp only [Option.some.injEq, Prod.mk.injEq] at hdb
        obtain ⟨hd, hb⟩ := hdb
        subst hd
        subst hb
        simp [hc]
      · simp [hc] at hdb
    · rw [hs] at hdb
      simp only [Option.some.injEq, Prod.mk.injEq] at hdb
      obtain ⟨hd, hb⟩ := hdb
      subst hd
      subst hb
      have hcs := ih d1 b1 hs
      rw [hcs]
      simp

theorem dirname_length_lt (path : Path) (hne : path ≠ [])
    (hnr : IsRootDirectory path = false) :
    (Dirname path).length < path.length := by
  have hnr2 : path ≠ ['/'] := by
    intro hp
    rw [hp] at hnr
    simp [IsRootDirectory] at hnr
  rcases hs : splitRaw path with _ | ⟨d, b⟩
  · simp only [Dirname, SplitPath, hs, List.length_nil]
    exact List.length_pos.mpr hne
  · have hp := splitRaw_append path d b hs
    rcases hd : d with _ | ⟨d0, ds⟩
    · subst hd
      rcases hb : b with _ | ⟨x, xs⟩
      · subst hb
        exact absurd (by simpa using hp) hnr2
      · subst hb
        simp only [Dirname, SplitPath, hs]
        rw [hp]
        simp
    · subst hd
      simp only [Dirname, SplitPath, hs]
      rw [hp]
      simp [List.length_append]

theorem getDirectoryStat_umask (path : Path) (mode : Nat) (cp : Bool)
    (st : FsState) : ((GetDirectoryStat path mode cp st).2).umask = st.umask := by
  unfold GetDirectoryStat
  cases hpp : st.paths path with
  | none => rfl
  | some e =>
    dsimp only
    split
    · rfl
    · split
      · split
        · rfl
        · dsimp only [umaskCall, setPath]
          split <;> rfl
      · rfl

theorem makeDirectories_umask_aux :
    ∀ (n : Nat) (path : Path), path.length ≤ n →
    ∀ (mode : Nat) (cm : Bool) (st : FsState),
    ((MakeDirectories path mode cm st).2).umask = st.umask := by
  intro n
  induction n with
  | zero =>
    intro path hp mode cm st
    have hnil : path = [] := List.length_eq_zero.mp (Nat.le_zero.mp hp)
    subst hnil
    unfold MakeDirectories
    rfl
  | succ n ih =>
    intro path hp mode cm st
    unfold MakeDirectories
    split
    · rfl
    · rename_i h
      have hne : path ≠ [] := fun hh => h (Or.inl hh)
      have hnr : IsRootDirectory path = false := by
        cases hr : IsRootDirectory path
        · rfl
        · exact absurd (Or.inr hr) h
      have hdl : (Dirname path).length ≤ n := by
        have := dirname_length_lt path hne hnr
        omega
      dsimp only
      split
      · exact getDirectoryStat_umask path mode cm st
      · split
        · split
          · rw [ih (Dirname path) hdl, getDirectoryStat_umask]
          · split
            · split
              · rw [getDirectoryStat_umask]
                dsimp only
                rw [ih (Dirname path) hdl, getDirectoryStat_umask]
              · dsimp only
                rw [ih (Dirname path) hdl, getDirectoryStat_umask]
            · dsimp only [setPath]
              rw [ih (Dirname path) hdl, getDirectoryStat_umask]
        · exact getDirectoryStat_umask path mode cm st

/-- C3 counterexample: with a write-phase error (errno 28, ENOSPC) followed
by a failing close (errno 5, EIO), WriteFile returns false with errno 5 —
the close error — because the early return on a failing close skips the
restore of the saved write-phase errno; the claim says errno 28 would be
reported. -/
theorem C3_counterexample :
    (WriteFile ⟨true, 0, false, 28, 1, false, 5⟩ [7, 8, 9] ['f']
      (fun _ => none) 0).1 = false ∧
    (WriteFile ⟨true, 0, false, 28, 1, false, 5⟩ [7, 8, 9] ['f']
      (fun _ => none) 0).2.1 = 5 ∧
    ¬(WriteFile ⟨true, 0, false, 28, 1, false, 5⟩ [7, 8, 9] ['f']
      (fun _ => none) 0).2.1 = 28 := by
  decide

/-- C3 as amended: when the write phase fails and close also fails, the
errno reported by WriteFile is the close error, not the write-phase error;
the write-phase errno is preserved for the caller exactly when close
succeeds. -/
theorem C3_close_error_reported (env : WriteEnv) (data : List Nat)
    (filename : Path) (fs : FileMap) (errno0 : Nat)
    (hopen : env.openOk = true) :
    (env.closeOk = false →
      (WriteFile env data filename fs errno0).1 = false ∧
      (WriteFile env data filename fs errno0).2.1 = env.closeErrno) ∧
    (env.closeOk = true → env.writeOk = false →
      (WriteFile env data filename fs errno0).1 = false ∧
      (WriteFile env data filename fs errno0).2.1 = env.writeErrno) := by
  unfold WriteFile
  constructor
  · intro hclose
    simp [hopen, hclose]
  · intro hclose hwrite
    simp [hopen, hclose, hwrite]

/-- Witness for the amended C3 at a concrete run: write fails with errno
28, close fails with errno 5, and the reported errno is 5. -/
theorem C3_close_error_reported_witness :
    (WriteFile ⟨true, 0, false, 28, 1, false, 5⟩ [7] ['g']
      (fun _ => none) 0).1 = false ∧
    (WriteFile ⟨true, 0, false, 28, 1, false, 5⟩ [7] ['g']
      (fun _ => none) 0).2.1 = 5 :=
  (C3_close_error_reported ⟨true, 0, false, 28, 1, false, 5⟩ [7] ['g']
    (fun _ => none) 0 (by decide)).1 (by decide)

/-- C8: WriteFile unlinks the destination before attempting the open, so
when open fails the function returns false and the destination's previous
content is already gone (and no other path was touched). -/
theorem C8_unlink_precedes_open (env : WriteEnv) (data : List Nat)
    (filename : Path) (fs : FileMap) (errno0 : Nat)
    (hopen : env.openOk = false) :
    (WriteFile env data filename fs errno0).1 = false ∧
    (WriteFile env data filename fs errno0).2.2 filename = none ∧
    ∀ q, q ≠ filename → (WriteFile env data filename fs errno0).2.2 q = fs q := by
  unfold WriteFile UnlinkPath
  refine ⟨by simp [hopen], by simp [hopen], ?_⟩
  intro q hq
  simp [hopen, hq]

/-- Witness for C8: the destination previously held content [9]; open
fails, WriteFile returns false, and the old content is gone. -/
theorem C8_unlink_precedes_open_witness :
    (WriteFile ⟨false, 13, true, 0, 0, true, 0⟩ [1] ['h']
      (fun q => if q = ['h'] then some [9] else none) 0).1 = false ∧
    (WriteFile ⟨false, 13, true, 0, 0, true, 0⟩ [1] ['h']
      (fun q => if q = ['h'] then some [9] else none) 0).2.2 ['h'] = none :=
  ⟨(C8_unlink_precedes_open ⟨false, 13, true, 0, 0, true, 0⟩ [1] ['h']
      (fun q => if q = ['h'] then some [9] else none) 0 (by decide)).1,
   (C8_unlink_precedes_open ⟨false, 13, true, 0, 0, true, 0⟩ [1] ['h']
      (fun q => if q = ['h'] then some [9] else none) 0 (by decide)).2.1⟩

/-- C4: within one PosixFileMtime instance built from monotone clock
readings t1 ≤ t2 ≤ t3, and for any SetToNow call whose clock reading tn
lies between construction and the nine-years-ahead near-future threshold
(the process lifetime stays under nine years), a path stamped by
SetToDistantFuture answers true to GetIfInDistantFuture, a path stamped by
SetToNow answers false, and the distant-future stamp lies strictly above
both every now stamp and the threshold, so the two bands never overlap. -/
theorem C4_mtime_bands (t1 t2 t3 tn : Int) (m : MtimeMap) (p q : Path)
    (h12 : t1 ≤ t2) (h23 : t2 ≤ t3) (h3n : t3 ≤ tn)
    (hlife : tn ≤ GetFuture t1 9) :
    GetIfInDistantFuture (mkPosixFileMtime t1 t2 t3) p
      (SetToDistantFuture (mkPosixFileMtime t1 t2 t3) p m) = some true ∧
    GetIfInDistantFuture (mkPosixFileMtime t1 t2 t3) q
      (SetToNow tn q m) = some false ∧
    tn < (mkPosixFileMtime t1 t2 t3).distant_future_modtime ∧
    (mkPosixFileMtime t1 t2 t3).near_future <
      (mkPosixFileMtime t1 t2 t3).distant_future_modtime := by
  unfold GetFuture at hlife
  unfold GetIfInDistantFuture SetToDistantFuture SetToNow setMtime
    mkPosixFileMtime GetFuture
  refine ⟨?_, ?_, ?_, ?_⟩
  · simp only [if_true, Option.some.injEq, decide_eq_true_eq]
    show t1 + 3600 * 24 * 365 * 9 < t3 + 3600 * 24 * 365 * 10
    omega
  · simp only [if_true, Option.some.injEq, decide_eq_false_iff_not]
    show ¬(t1 + 3600 * 24 * 365 * 9 < tn)
    omega
  · show tn < t3 + 3600 * 24 * 365 * 10
    omega
  · show t1 + 3600 * 24 * 365 * 9 < t3 + 3600 * 24 * 365 * 10
    omega

/-- Witness for C4 with all construction clock readings 0 and a SetToNow
reading of 5 seconds. -/
theorem C4_mtime_bands_witness :
    GetIfInDistantFuture (mkPosixFileMtime 0 0 0) ['p']
      (SetToDistantFuture (mkPosixFileMtime 0 0 0) ['p'] (fun _ => none)) =
      some true ∧
    GetIfInDistantFuture (mkPosixFileMtime 0 0 0) ['q']
      (SetToNow 5 ['q'] (fun _ => none)) = some false ∧
    (5 : Int) < (mkPosixFileMtime 0 0 0).distant_future_modtime ∧
    (mkPosixFileMtime 0 0 0).near_future <
      (mkPosixFileMtime 0 0 0).distant_future_modtime :=
  C4_mtime_bands 0 0 0 5 (fun _ => none) ['p'] ['q']
    (by decide) (by decide) (by decide) (by decide)

/-- C1: if the childmost path already exists as a directory but its
link-stat owner differs from the effective user, MakeDirectories with
childmost = true fails with errno EACCES, and the filesystem (including the
directory's mode) and the umask are completely unchanged: the owner check
strictly precedes, and on mismatch prevents, the chmod step. -/
theorem C1_owner_mismatch_rejected (path : Path) (mode : Nat) (st : FsState)
    (e : DirEntry) (hp : st.paths path = some e) (hdir : e.isDir = true)
    (hown : e.lstatOwner ≠ st.euid) :
    MakeDirectories path mode true st = (false, { st with errno := EACCES }) := by
  have hgds : GetDirectoryStat path mode true st =
      (false, { st with errno := EACCES }) := by
    unfold GetDirectoryStat
    rw [hp]
    simp [hdir, hown]
  unfold MakeDirectories
  split
  · rfl
  · dsimp only
    rw [hgds]
    simp [ENOENT, EACCES]

/-- Witness for C1 at a concrete state: directory /d exists, is owned by
uid 42 while the effective uid is 1000; the call fails with EACCES and the
state is unchanged apart from errno. -/
theorem C1_owner_mismatch_rejected_witness :
    MakeDirectories ['/', 'd'] 448 true
      { paths := fun q => if q = ['/', 'd'] then some ⟨true, 448, 42⟩ else none,
        umask := 18, euid := 1000, errno := 0 } =
      (false,
        { paths := fun q => if q = ['/', 'd'] then some ⟨true, 448, 42⟩ else none,
          umask := 18, euid := 1000, errno := EACCES }) :=
  C1_owner_mismatch_rejected ['/', 'd'] 448
    { paths := fun q => if q = ['/', 'd'] then some ⟨true, 448, 42⟩ else none,
      umask := 18, euid := 1000, errno := 0 }
    ⟨true, 448, 42⟩ (by decide) (by decide) (by decide)

/-- C9: GetDirectoryStat probes the umask by setting it to 022 and
immediately restoring the previous value, so the umask after every
GetDirectoryStat call — and hence after every MakeDirectories call — equals
its value on entry. -/
theorem C9_umask_preserved :
    (∀ (path : Path) (mode : Nat) (cp : Bool) (st : FsState),
      ((GetDirectoryStat path mode cp st).2).umask = st.umask) ∧
    (∀ (path : Path) (mode : Nat) (cm : Bool) (st : FsState),
      ((MakeDirectories path mode cm st).2).umask = st.umask) :=
  ⟨getDirectoryStat_umask, fun path mode cm st =>
    makeDirectories_umask_aux path.length path le_rfl mode cm st⟩

/-- C10: the parent step of MakeDirectories strictly shortens the path
(Dirname, i.e. the SplitPath prefix before the last '/', is shorter than any
non-empty non-root path), and the empty path and the root path are rejected
immediately with EACCES, so the parent recursion is well-founded; the Lean
function MakeDirectories is total. -/
theorem C10_termination :
    (∀ path : Path, path ≠ [] → IsRootDirectory path = false →
      (Dirname path).length < path.length) ∧
    (∀ (mode : Nat) (cm : Bool) (st : FsState),
      MakeDirectories [] mode cm st = (false, { st with errno := EACCES }) ∧
      MakeDirectories ['/'] mode cm st = (false, { st with errno := EACCES })) := by
  constructor
  · exact fun path h1 h2 => dirname_length_lt path h1 h2
  · intro mode cm st
    constructor
    · unfold MakeDirectories
      simp
    · unfold MakeDirectories
      simp [IsRootDirectory]

/-- Witness for C10 at the concrete path /a/b: its Dirname /a is strictly
shorter. -/
theorem C10_termination_witness :
    (Dirname ['/', 'a', '/', 'b']).length < (['/', 'a', '/', 'b'] : Path).length :=
  C10_termination.1 ['/', 'a', '/', 'b'] (by decide) (by decide)

/-- C2: an -M flag with an absolute argument opens a bind-mount pair whose
target initially equals its source (the argument is pushed onto both
lists); an -m flag arriving while the pair is still open (source_specified
true) replaces only the most recently pushed target; and parsing
-M /a -m /b -M /c yields the pair sequence [(/a,/b), (/c,/c)], whatever the
initial value of the uninitialized source_specified flag. -/
theorem C2_bind_mount_pairing :
    (∀ (o : Options) (ss : Bool) (arg : Path), isAbsolute arg = true →
      applyOpt o ss 'M' arg =
        StepResult.cont
          { o with bind_mount_sources := o.bind_mount_sources ++ [arg],
                   bind_mount_targets := o.bind_mount_targets ++ [arg] } true) ∧
    (∀ (o : Options) (arg : Path), isAbsolute arg = true →
      o.bind_mount_targets ≠ [] →
      applyOpt o true 'm' arg =
        StepResult.cont
          { o with bind_mount_targets :=
              o.bind_mount_targets.dropLast ++ [arg] } false) ∧
    (∀ ssInit : Bool,
      ParseCommandLine ssInit
        [['p'], ['-', 'M'], ['/', 'a'], ['-', 'm'], ['/', 'b'],
         ['-', 'M'], ['/', 'c']] =
      ParseResult.ok
        { defaultOptions with
            bind_mount_sources := [['/', 'a'], ['/', 'c']],
            bind_mount_targets := [['/', 'b'], ['/', 'c']] }) := by
  refine ⟨?_, ?_, ?_⟩
  · intro o ss arg habs
    have hM : applyOpt o ss 'M' arg =
        (if isAbsolute arg then
          StepResult.cont
            { o with bind_mount_sources := o.bind_mount_sources ++ [arg],
                     bind_mount_targets := o.bind_mount_targets ++ [arg] } true
        else StepResult.usage (UsageMsg.notAbsolute 'M')) := rfl
    rw [hM, if_pos habs]
  · intro o arg habs hne
    have hm : applyOpt o true 'm' arg =
        (if isAbsolute arg then
          StepResult.cont
            { o with bind_mount_targets :=
                o.bind_mount_targets.dropLast ++ [arg] } false
        else StepResult.usage (UsageMsg.notAbsolute 'm')) := rfl
    rw [hm, if_pos habs]
  · intro ssInit
    cases ssInit
    · decide
    · decide

/-- Witness for C2: -M /a pushes (/a,/a); a following -m /b on the open pair
replaces the target, giving (/a,/b); the full example parse gives
[(/a,/b), (/c,/c)]. -/
theorem C2_bind_mount_pairing_witness :
    applyOpt defaultOptions false 'M' ['/', 'a'] =
      StepResult.cont
        { defaultOptions with
            bind_mount_sources := defaultOptions.bind_mount_sources ++ [['/', 'a']],
            bind_mount_targets := defaultOptions.bind_mount_targets ++ [['/', 'a']] }
        true ∧
    applyOpt
      { defaultOptions with
          bind_mount_sources := [['/', 'a']],
          bind_mount_targets := [['/', 'a']] } true 'm' ['/', 'b'] =
      StepResult.cont
        { defaultOptions with
            bind_mount_sources := [['/', 'a']],
            bind_mount_targets := [['/', 'b']] } false ∧
    ParseCommandLine false
      [['p'], ['-', 'M'], ['/', 'a'], ['-', 'm'], ['/', 'b'],
       ['-', 'M'], ['/', 'c']] =
      ParseResult.ok
        { defaultOptions with
            bind_mount_sources := [['/', 'a'], ['/', 'c']],
            bind_mount_targets := [['/', 'b'], ['/', 'c']] } :=
  ⟨C2_bind_mount_pairing.1 defaultOptions false ['/', 'a'] (by decide),
   (C2_bind_mount_pairing.2.1
      { defaultOptions with
          bind_mount_sources := [['/', 'a']],
          bind_mount_targets := [['/', 'a']] } ['/', 'b']
      (by decide) (by decide)).trans (by decide),
   C2_bind_mount_pairing.2.2 false⟩

/-- C5 (code bug): an -m with no open pair is rejected with "The -m option
must be strictly preceded by an -M option" whenever source_specified has
been written before it is read, but when -m is the very first option
delivered by getopt the flag is read uninitialized: with an indeterminate
true value the same command line is accepted, popping the empty target
vector and producing a target with no matching source. -/
theorem C5_uninitialized_source_specified :
    ParseCommandLine false [['p'], ['-', 'm'], ['/', 'x'], ['-', '-'], ['c']] =
      ParseResult.usage UsageMsg.mNotPreceded ∧
    ParseCommandLine true [['p'], ['-', 'm'], ['/', 'x'], ['-', '-'], ['c']] =
      ParseResult.ok
        { defaultOptions with bind_mount_targets := [['/', 'x']],
                              args := [['c']] } := by
  constructor
  · decide
  · decide

/-- C6 counterexample: "5abc" is not a non-negative decimal integer, yet
-T 5abc is accepted with timeout 5, because sscanf("%d") reads the digit
prefix and ignores the trailing characters. -/
theorem C6_counterexample :
    ParseCommandLine false
      [['p'], ['-', 'T'], ['5', 'a', 'b', 'c'], ['-', '-'], ['c']] =
      ParseResult.ok
        { defaultOptions with timeout_secs := 5, args := [['c']] } := by
  decide

/-- C6 as amended: the -T and -t option handlers reject their argument
exactly when sscanf-style parsing finds no integer (no digit after optional
whitespace and sign) or the parsed value is negative; a digit prefix with
trailing garbage is accepted with the value of the prefix. -/
theorem C6_numeric_rejection (o : Options) (ss : Bool) (arg : Path) :
    ((∃ msg, applyOpt o ss 'T' arg = StepResult.usage msg) ↔
      (scanInt arg = none ∨ ∃ v, scanInt arg = some v ∧ v < 0)) ∧
    ((∃ msg, applyOpt o ss 't' arg = StepResult.usage msg) ↔
      (scanInt arg = none ∨ ∃ v, scanInt arg = some v ∧ v < 0)) := by
  constructor
  · have hT : applyOpt o ss 'T' arg =
        (match scanInt arg with
         | some v =>
           if v < 0 then StepResult.usage (UsageMsg.invalidTimeout arg)
           else StepResult.cont { o with timeout_secs := v } ss
         | none => StepResult.usage (UsageMsg.invalidTimeout arg)) := rfl
    rw [hT]
    rcases hsc : scanInt arg with _ | v
    · simp
    · by_cases hv : v < 0 <;> simp [hv]
  · have ht : applyOpt o ss 't' arg =
        (match scanInt arg with
         | some v =>
           if v < 0 then StepResult.usage (UsageMsg.invalidKillDelay arg)
           else StepResult.cont { o with kill_delay_secs := v } ss
         | none => StepResult.usage (UsageMsg.invalidKillDelay arg)) := rfl
    rw [ht]
    rcases hsc : scanInt arg with _ | v
    · simp
    · by_cases hv : v < 0 <;> simp [hv]

theorem foldlM_filter_if (fsys : Path → Option (List Path)) (fuel : Nat) :
    ∀ (lines : List Path) (acc : List Path),
      lines.foldlM
        (fun a l =>
          if 0 < l.length then ExpandArgument fsys fuel a l else pure a) acc =
      (lines.filter (fun l => decide (0 < l.length))).foldlM
        (fun a l => ExpandArgument fsys fuel a l) acc := by
  intro lines
  induction lines with
  | nil => intro acc; rfl
  | cons l ls ih =>
    intro acc
    by_cases hl : 0 < l.length
    · simp only [List.foldlM_cons, List.filter_cons, hl, decide_True, if_true,
        if_pos hl]
      cases hE : ExpandArgument fsys fuel acc l with
      | ok e => exact ih e
      | error err => rfl
    · simp only [List.foldlM_cons, List.filter_cons, hl, decide_False,
        Bool.false_eq_true, if_false, if_neg hl]
      rw [pure_bind]
      exact ih acc

/-- C7: expansion stops permanently at the first literal "--" — the loop
copies that token and everything after it through unchanged, so no token at
or after the first "--" is expanded even if it starts with '@' — while
before the "--" an @-token is replaced by the recursively expanded
non-empty lines of the named file and a non-@ token is copied through. -/
theorem C7_dashdash_stops_expansion :
    (∀ (fsys : Path → Option (List Path)) (fuel : Nat)
       (acc pre post : List Path), ['-', '-'] ∉ pre →
      expandLoop fsys fuel acc (pre ++ ['-', '-'] :: post) =
        match expandLoop fsys fuel acc pre with
        | Except.ok e => Except.ok (e ++ ['-', '-'] :: post)
        | Except.error err => Except.error err) ∧
    (∀ (fsys : Path → Option (List Path)) (fuel : Nat) (acc : List Path)
       (name : Path) (lines : List Path), fsys name = some lines →
      ExpandArgument fsys (fuel + 1) acc ('@' :: name) =
        (lines.filter (fun l => decide (0 < l.length))).foldlM
          (fun a l => ExpandArgument fsys fuel a l) acc) ∧
    (∀ (fsys : Path → Option (List Path)) (fuel : Nat) (acc : List Path)
       (arg : Path), arg.head? ≠ some '@' →
      ExpandArgument fsys (fuel + 1) acc arg = Except.ok (acc ++ [arg])) := by
  refine ⟨?_, ?_, ?_⟩
  · intro fsys fuel acc pre post
    induction pre generalizing acc with
    | nil => intro _; rfl
    | cons a pre ih =>
      intro hnp
      have ha : a ≠ ['-', '-'] := by
        intro hh
        apply hnp
        rw [← hh]
        exact List.mem_cons_self a pre
      have hstep : ∀ rest, expandLoop fsys fuel acc (a :: rest) =
          match ExpandArgument fsys fuel acc a with
          | Except.ok e2 => expandLoop fsys fuel e2 rest
          | Except.error err => Except.error err := by
        intro rest
        simp only [expandLoop, if_neg ha]
      rw [List.cons_append, hstep, hstep]
      cases hE : ExpandArgument fsys fuel acc a with
      | ok e2 => exact ih e2 (fun hm => hnp (List.mem_cons_of_mem a hm))
      | error err => rfl
  · intro fsys fuel acc name lines hf
    have h1 : ExpandArgument fsys (fuel + 1) acc ('@' :: name) =
        (match fsys name with
         | none => Except.error (ExpandErr.openFailed name)
         | some ls2 =>
           ls2.foldlM
             (fun a l =>
               if 0 < l.length then ExpandArgument fsys fuel a l else pure a)
             acc) := rfl
    rw [h1, hf]
    exact foldlM_filter_if fsys fuel lines acc
  · intro fsys fuel acc arg harg
    have h1 : ExpandArgument fsys (fuel + 1) acc arg =
        (if arg.head? = some '@' then
          match fsys arg.tail with
          | none => Except.error (ExpandErr.openFailed arg.tail)
          | some lines =>
            lines.foldlM
              (fun a l =>
                if 0 < l.length then ExpandArgument fsys fuel a l else pure a)
              acc
        else Except.ok (acc ++ [arg])) := rfl
    rw [h1, if_neg harg]

/-- Witness for C7 with the file f holding lines a, b, (empty), c: the
tokens at and after "--" pass through unexpanded (including @g), @f before
the "--" expands to a b c with the blank line dropped, and a plain token
passes through. -/
theorem C7_dashdash_stops_expansion_witness :
    expandLoop (fun n => if n = ['f'] then some [['a'], ['b'], [], ['c']] else none)
      5 [] ([['@', 'f']] ++ ['-', '-'] :: [['@', 'g']]) =
      Except.ok [['a'], ['b'], ['c'], ['-', '-'], ['@', 'g']] ∧
    ExpandArgument
      (fun n => if n = ['f'] then some [['a'], ['b'], [], ['c']] else none)
      (3 + 1) [] ('@' :: ['f']) = Except.ok [['a'], ['b'], ['c']] ∧
    ExpandArgument
      (fun n => if n = ['f'] then some [['a'], ['b'], [], ['c']] else none)
      (3 + 1) [] ['x'] = Except.ok [['x']] :=
  ⟨(C7_dashdash_stops_expansion.1
      (fun n => if n = ['f'] then some [['a'], ['b'], [], ['c']] else none)
      5 [] [['@', 'f']] [['@', 'g']] (by decide)).trans (by rfl),
   (C7_dashdash_stops_expansion.2.1
      (fun n => if n = ['f'] then some [['a'], ['b'], [], ['c']] else none)
      3 [] ['f'] [['a'], ['b'], [], ['c']] (by decide)).trans (by rfl),
   (C7_dashdash_stops_expansion.2.2
      (fun n => if n = ['f'] then some [['a'], ['b'], [], ['c']] else none)
      3 [] ['x'] (by decide)).trans (by rfl)⟩

end Bazel
